import Mathlib

/-!
Verification development for the Floripa-Testnet supply-tracking core
(package `staking`): the `SupplyTracker` audit-log ledger, the cap-clamped
block-reward minting, the fee splitter and the genesis-total accumulator.

Go `*big.Int` values are modelled as `Int` (with `Option Int` where the Go
code checks for `nil`); Go `uint64` as `Nat` (with an explicit wrap where the
source converts to `int64`); Go `string` identities as `String`.  Stateful
methods become state-passing functions returning the error value together
with the successor state, mirroring the Go receiver mutation: every early
`return err` path leaves the receiver unchanged.
-/

/-- Error values of the `staking` package (`ErrSupplyCapExceeded`,
`ErrUnauthorizedMint`, `ErrInvalidAmount`, `ErrInsufficientSupply`). -/
inductive SupplyError where
  | supplyCapExceeded
  | unauthorizedMint
  | invalidAmount
  | insufficientSupply
deriving DecidableEq, Repr

/-- Go struct `SupplyAuditLog`: one immutable record of a supply change. -/
structure SupplyAuditLog where
  blockNumber : Nat
  amount : Int
  type : String
  timestamp : Nat
  caller : String
deriving DecidableEq, Repr

/-- Go struct `SupplyTracker` (the mutex is a concurrency artifact with no
value-level content and is omitted). -/
structure SupplyTracker where
  initialSupply : Int
  auditLog : List SupplyAuditLog
deriving DecidableEq, Repr

/-- Go `NewSupplyTracker`: fresh tracker with an empty audit log. -/
def NewSupplyTracker (initialSupply : Int) : SupplyTracker :=
  { initialSupply := initialSupply, auditLog := [] }

/-- Loop body shared by `GetTotalSupply` and `getCurrentSupply` in the Go
source: add `mint` amounts, subtract `burn` amounts, ignore anything else. -/
def supplyStep (total : Int) (change : SupplyAuditLog) : Int :=
  if change.type = "mint" then total + change.amount
  else if change.type = "burn" then total - change.amount
  else total

/-- Go `SupplyTracker.getCurrentSupply`: initial supply plus all changes. -/
def SupplyTracker.getCurrentSupply (st : SupplyTracker) : Int :=
  st.auditLog.foldl supplyStep st.initialSupply

/-- Go `SupplyTracker.GetTotalSupply`: textually the same computation as
`getCurrentSupply`. -/
def SupplyTracker.GetTotalSupply (st : SupplyTracker) : Int :=
  st.auditLog.foldl supplyStep st.initialSupply

/-- Go `isConsensusEngine`: caller is the system zero address or the literal
`consensus_engine` identifier. -/
def isConsensusEngine (caller : String) : Bool :=
  caller = "0x0000000000000000000000000000000000000000" ||
  caller = "consensus_engine"

/-- Go constant `MaxSupplyAmount` parsed by `getMaxSupply`:
1 billion AZE in wei. -/
def getMaxSupply : Int := 1000000000000000000000000000

/-- Go constant `BlockRewardAmount` (1 AZE in wei). -/
def BlockRewardAmount : Int := 1000000000000000000

/-- Go `SupplyTracker.Mint`.  The Go method mutates the receiver only on the
success path; here the result pairs the returned error with the successor
state (identical to the input on every failure).  The `nil` amount check and
`amount.Cmp(big.NewInt(0)) <= 0` are the first guard; `time.Now` becomes the
explicit `ts` argument. -/
def SupplyTracker.Mint (st : SupplyTracker) (amount : Option Int)
    (blockNumber : Nat) (caller : String) (ts : Nat) :
    Option SupplyError × SupplyTracker :=
  match amount with
  | none => (some .invalidAmount, st)
  | some a =>
    if a ≤ 0 then (some .invalidAmount, st)
    else if ¬ isConsensusEngine caller then (some .unauthorizedMint, st)
    else
      let currentSupply := st.getCurrentSupply
      let maxSupply := getMaxSupply
      let newSupply := currentSupply + a
      if maxSupply < newSupply then (some .supplyCapExceeded, st)
      else
        (none, { st with auditLog := st.auditLog ++
          [{ blockNumber := blockNumber, amount := a, type := "mint",
             timestamp := ts, caller := caller }] })

/-- Go `SupplyTracker.Burn`: same amount and caller guards as `Mint`, then
`currentSupply.Cmp(amount) < 0` yields `ErrInsufficientSupply`. -/
def SupplyTracker.Burn (st : SupplyTracker) (amount : Option Int)
    (blockNumber : Nat) (caller : String) (ts : Nat) :
    Option SupplyError × SupplyTracker :=
  match amount with
  | none => (some .invalidAmount, st)
  | some a =>
    if a ≤ 0 then (some .invalidAmount, st)
    else if ¬ isConsensusEngine caller then (some .unauthorizedMint, st)
    else if st.getCurrentSupply < a then (some .insufficientSupply, st)
    else
      (none, { st with auditLog := st.auditLog ++
        [{ blockNumber := blockNumber, amount := a, type := "burn",
           timestamp := ts, caller := caller }] })

/-- Go `SupplyTracker.GetAuditLog`: returns a copy of the log (in this
value-level model the copy is the same list value; the pointer-level shallow
copy is modelled separately below). -/
def SupplyTracker.GetAuditLog (st : SupplyTracker) : List SupplyAuditLog :=
  st.auditLog

/-- Go struct `SystemSupplyTracker`: wrapper holding a `SupplyTracker`. -/
structure SystemSupplyTracker where
  tracker : SupplyTracker
deriving DecidableEq, Repr

/-- Go `NewSystemSupplyTracker`. -/
def NewSystemSupplyTracker (initialSupply : Int) : SystemSupplyTracker :=
  { tracker := NewSupplyTracker initialSupply }

/-- Go `SystemSupplyTracker.MintRewardWithCap`.  The returned triple is the
Go error value (`nil` on every path), the successor state, and the list of
amounts passed to `txn.AddBalance(ownerAddress, ·)` during the call.  The
control flow mirrors the source: early return when the cap is already
reached; clamp the reward to `maxSupply - currentSupply` when the full
reward would cross the cap (returning early if that remainder is not
positive); otherwise append one audit entry and credit the reward. -/
def SystemSupplyTracker.MintRewardWithCap (sst : SystemSupplyTracker)
    (blockNumber : Nat) (ts : Nat) :
    Option SupplyError × SystemSupplyTracker × List Int :=
  let currentSupply := sst.tracker.getCurrentSupply
  let maxSupply := getMaxSupply
  if maxSupply ≤ currentSupply then (none, sst, [])
  else
    let blockReward : Int := BlockRewardAmount
    let newSupply := currentSupply + blockReward
    if maxSupply < newSupply then
      let blockReward := maxSupply - currentSupply
      if blockReward ≤ 0 then (none, sst, [])
      else
        (none,
          { tracker := { sst.tracker with auditLog := sst.tracker.auditLog ++
            [{ blockNumber := blockNumber, amount := blockReward,
               type := "mint", timestamp := ts,
               caller := "consensus_engine" }] } },
          [blockReward])
    else
      (none,
        { tracker := { sst.tracker with auditLog := sst.tracker.auditLog ++
          [{ blockNumber := blockNumber, amount := blockReward,
             type := "mint", timestamp := ts,
             caller := "consensus_engine" }] } },
        [blockReward])

/-- Total of the amounts passed to `AddBalance` during a call. -/
def mintedTotal (calls : List Int) : Int :=
  calls.foldl (fun a b => a + b) 0

/-- ComputeMintable as the SPEC words it (section 4.2): zero at or above the
cap, otherwise the minimum of the nominal reward and the remaining headroom.
This definition follows the spec text, to be compared with the source's
clamp in `MintRewardWithCap` and `MintBlockReward`. -/
def ComputeMintable (currentSupply maxSupply nominalReward : Int) : Int :=
  if maxSupply ≤ currentSupply then 0
  else min nominalReward (maxSupply - currentSupply)

/-- Go `chain.GenesisAccount` restricted to the field the staking helper
reads: a possibly-`nil` balance. -/
structure GenesisAccount where
  balance : Option Int
deriving DecidableEq, Repr

/-- Go `types.ZeroAddress` rendered as the address string the allocation map
keys are compared against. -/
def ZeroAddress : String := "0x0000000000000000000000000000000000000000"

/-- Go `calculateGenesisTotal`: the allocation map (possibly `nil`, modelled
as an association list of the map's entries) is summed, skipping the zero
address and skipping accounts whose `Balance` is `nil`. -/
def calculateGenesisTotal
    (alloc : Option (List (String × GenesisAccount))) : Int :=
  match alloc with
  | none => 0
  | some entries =>
    entries.foldl
      (fun total p =>
        if p.1 = ZeroAddress then total
        else match p.2.balance with
          | none => total
          | some b => total + b) 0

/-- Go `getGenesisTotal`: computes on a cache miss, then returns a copy of
the cached value; the pair is the returned amount and the cache cell after
the call. -/
def getGenesisTotal (cache : Option Int)
    (alloc : Option (List (String × GenesisAccount))) : Int × Option Int :=
  match cache with
  | some v => (v, some v)
  | none =>
    let v := calculateGenesisTotal alloc
    (v, some v)

/-- Go conversion `int64(blockNumber)` applied to a `uint64`: values at or
above `2^63` wrap to negative. -/
def int64OfUint64 (n : Nat) : Int :=
  if n < 2 ^ 63 then (n : Int) else (n : Int) - 2 ^ 64

/-- Go `getCurrentSupplyFromBlockNumber`: genesis total plus
`big.NewInt(int64(blockNumber))` times the nominal block reward; the pair
carries the genesis cache through the call. -/
def getCurrentSupplyFromBlockNumber (cache : Option Int)
    (alloc : Option (List (String × GenesisAccount))) (blockNumber : Nat) :
    Int × Option Int :=
  let g := getGenesisTotal cache alloc
  let blockRewards := int64OfUint64 blockNumber * BlockRewardAmount
  (g.1 + blockRewards, g.2)

/-- Go `MintBlockReward` (file `enhanced_staking.go`): derives the current
supply from the closed-form block-number formula, then clamps the 1 AZE
reward against the 1-billion-AZE cap.  The triple is the Go error (`nil` on
every path), the amounts passed to `txn.AddBalance(ownerAddress, ·)`, and
the genesis cache after the call. -/
def MintBlockReward (cache : Option Int)
    (alloc : Option (List (String × GenesisAccount))) (blockNumber : Nat) :
    Option SupplyError × List Int × Option Int :=
  let r := getCurrentSupplyFromBlockNumber cache alloc blockNumber
  let currentSupply := r.1
  let blockReward : Int := BlockRewardAmount
  let maxSupply : Int := getMaxSupply
  let newSupply := currentSupply + blockReward
  if maxSupply < newSupply then
    let remaining := maxSupply - currentSupply
    if remaining ≤ 0 then (none, [], r.2)
    else (none, [remaining], r.2)
  else (none, [blockReward], r.2)

/-- Go `DistributeTxFeesToValidator`: no-op on a `nil` or zero fee total,
otherwise owner gets `totalFees / 2` (Go `big.Int.Div`, Euclidean division,
which for the positive divisor 2 is floor division) and the block producer
gets the rest.  The result is the Go error (`nil` on every path) and the
`AddBalance` calls performed, in order. -/
def DistributeTxFeesToValidator (totalFees : Option Int)
    (ownerAddress blockProducerAddress : String) :
    Option SupplyError × List (String × Int) :=
  match totalFees with
  | none => (none, [])
  | some f =>
    if f = 0 then (none, [])
    else
      let ownerFee := f / 2
      let validatorFee := f - ownerFee
      (none, [(ownerAddress, ownerFee), (blockProducerAddress, validatorFee)])

/-- One external request against the ledger: a `Mint` or `Burn` call with
its arguments. -/
inductive SupplyOp where
  | mintOp (amount : Option Int) (blockNumber : Nat) (caller : String) (ts : Nat)
  | burnOp (amount : Option Int) (blockNumber : Nat) (caller : String) (ts : Nat)
deriving DecidableEq, Repr

/-- Apply one request; a failed request leaves the tracker unchanged, as in
the Go methods. -/
def applyOp (st : SupplyTracker) (op : SupplyOp) : SupplyTracker :=
  match op with
  | .mintOp a bn c ts => (st.Mint a bn c ts).2
  | .burnOp a bn c ts => (st.Burn a bn c ts).2

/-- Run a sequence of `Mint`/`Burn` requests from a starting tracker. -/
def execOps (st : SupplyTracker) (ops : List SupplyOp) : SupplyTracker :=
  ops.foldl applyOp st

/-- Sum of the amounts of the `mint` entries of a log. -/
def mintSum : List SupplyAuditLog → Int
  | [] => 0
  | e :: l => (if e.type = "mint" then e.amount else 0) + mintSum l

/-- Sum of the amounts of the `burn` entries of a log. -/
def burnSum : List SupplyAuditLog → Int
  | [] => 0
  | e :: l => (if e.type = "burn" then e.amount else 0) + burnSum l

/-- One event of a block-production history: a per-block
`MintRewardWithCap` invocation, or a `Burn` request in between. -/
inductive ChainEvent where
  | rewardBlock (ts : Nat)
  | burnEvent (amount : Option Int) (blockNumber : Nat) (caller : String) (ts : Nat)
deriving DecidableEq, Repr

/-- State of a running history: the tracker, the number of reward blocks
produced so far, and whether a divergence event (a successful burn, or a
reward block that minted anything other than the full nominal reward) has
occurred. -/
structure ChainState where
  sst : SystemSupplyTracker
  height : Nat
  divergent : Bool
deriving DecidableEq, Repr

/-- Advance a history by one event. -/
def stepChain (s : ChainState) (ev : ChainEvent) : ChainState :=
  match ev with
  | .rewardBlock ts =>
    let r := s.sst.MintRewardWithCap (s.height + 1) ts
    { sst := r.2.1, height := s.height + 1,
      divergent := s.divergent || (mintedTotal r.2.2 != BlockRewardAmount) }
  | .burnEvent a bn c ts =>
    let r := s.sst.tracker.Burn a bn c ts
    { sst := { tracker := r.2 }, height := s.height,
      divergent := s.divergent || (r.1).isNone }

/-- Run a block-production history from a fresh tracker whose initial
supply is the genesis total `g`. -/
def runChain (g : Int) (evs : List ChainEvent) : ChainState :=
  evs.foldl stepChain
    { sst := NewSystemSupplyTracker g, height := 0, divergent := false }

/-!
Pointer-level model for `GetAuditLog`.  In the Go source
`SupplyAuditLog.Amount` is a `*big.Int`: the slice copy made by
`GetAuditLog` copies the structs but the copied structs still hold the same
`*big.Int` pointers as the internal log.  To state what a caller can reach
through those pointers, `big.Int` cells live in an explicit heap (a list of
`Int` indexed by pointer) and entries hold cell indices.
-/

/-- `SupplyAuditLog` with its `Amount` field as a pointer into the heap. -/
structure SupplyAuditLogRef where
  blockNumber : Nat
  amountRef : Nat
  type : String
  timestamp : Nat
  caller : String
deriving DecidableEq, Repr

/-- `SupplyTracker` at the pointer level: `initialSupply` is also a
`*big.Int`. -/
structure SupplyTrackerRef where
  initialRef : Nat
  auditLog : List SupplyAuditLogRef
deriving DecidableEq, Repr

/-- Dereference a `*big.Int`. -/
def readCell (heap : List Int) (r : Nat) : Int :=
  heap.getD r 0

/-- In-place mutation of a `big.Int` cell, as performed by the `big.Int`
setter methods (`Set`, `SetInt64`, ...). -/
def setCell (heap : List Int) (r : Nat) (v : Int) : List Int :=
  heap.set r v

/-- `GetTotalSupply` at the pointer level: the same fold as the Go loop,
dereferencing each entry's `Amount`. -/
def GetTotalSupplyRef (heap : List Int) (st : SupplyTrackerRef) : Int :=
  st.auditLog.foldl
    (fun total change =>
      if change.type = "mint" then total + readCell heap change.amountRef
      else if change.type = "burn" then total - readCell heap change.amountRef
      else total)
    (readCell heap st.initialRef)

/-- `GetAuditLog` at the pointer level: `make` + `copy` produce a fresh
slice whose entries are struct copies holding the same `Amount` pointers. -/
def GetAuditLogRef (st : SupplyTrackerRef) : List SupplyAuditLogRef :=
  st.auditLog

/-!
Guard-trace-level model of the authorization check.  To observe on which
callers `isConsensusEngine` is evaluated during a call, each supply-mutating
function is given an observation channel: alongside its Go result it also
returns the list of caller strings passed to `isConsensusEngine` during the
call, in evaluation order, exactly as the calls occur in the Go bodies.
-/

/-- Go `SupplyTracker.Mint` with its guard trace: the source evaluates
`isConsensusEngine(caller)` exactly once, after the amount guard and before
any further check, on every path that reaches it; the early invalid-amount
returns evaluate it on nothing. -/
def SupplyTracker.MintTraced (st : SupplyTracker) (amount : Option Int)
    (blockNumber : Nat) (caller : String) (ts : Nat) :
    (Option SupplyError × SupplyTracker) × List String :=
  match amount with
  | none => ((some .invalidAmount, st), [])
  | some a =>
    if a ≤ 0 then ((some .invalidAmount, st), [])
    else if ¬ isConsensusEngine caller then
      ((some .unauthorizedMint, st), [caller])
    else
      let currentSupply := st.getCurrentSupply
      let maxSupply := getMaxSupply
      let newSupply := currentSupply + a
      if maxSupply < newSupply then ((some .supplyCapExceeded, st), [caller])
      else
        ((none, { st with auditLog := st.auditLog ++
          [{ blockNumber := blockNumber, amount := a, type := "mint",
             timestamp := ts, caller := caller }] }), [caller])

/-- Go `SupplyTracker.Burn` with its guard trace (the same single
evaluation point as `Mint`). -/
def SupplyTracker.BurnTraced (st : SupplyTracker) (amount : Option Int)
    (blockNumber : Nat) (caller : String) (ts : Nat) :
    (Option SupplyError × SupplyTracker) × List String :=
  match amount with
  | none => ((some .invalidAmount, st), [])
  | some a =>
    if a ≤ 0 then ((some .invalidAmount, st), [])
    else if ¬ isConsensusEngine caller then
      ((some .unauthorizedMint, st), [caller])
    else if st.getCurrentSupply < a then
      ((some .insufficientSupply, st), [caller])
    else
      ((none, { st with auditLog := st.auditLog ++
        [{ blockNumber := blockNumber, amount := a, type := "burn",
           timestamp := ts, caller := caller }] }), [caller])

/-- Go `SystemSupplyTracker.MintRewardWithCap` with its guard trace: the
source body contains no call to `isConsensusEngine` on any path — it
appends its audit entry directly with the hardcoded caller string — so
every path carries the empty trace. -/
def SystemSupplyTracker.MintRewardWithCapTraced (sst : SystemSupplyTracker)
    (blockNumber : Nat) (ts : Nat) :
    (Option SupplyError × SystemSupplyTracker × List Int) × List String :=
  let currentSupply := sst.tracker.getCurrentSupply
  let maxSupply := getMaxSupply
  if maxSupply ≤ currentSupply then ((none, sst, []), [])
  else
    let blockReward : Int := BlockRewardAmount
    let newSupply := currentSupply + blockReward
    if maxSupply < newSupply then
      let blockReward := maxSupply - currentSupply
      if blockReward ≤ 0 then ((none, sst, []), [])
      else
        ((none,
          { tracker := { sst.tracker with auditLog := sst.tracker.auditLog ++
            [{ blockNumber := blockNumber, amount := blockReward,
               type := "mint", timestamp := ts,
               caller := "consensus_engine" }] } },
          [blockReward]), [])
    else
      ((none,
        { tracker := { sst.tracker with auditLog := sst.tracker.auditLog ++
          [{ blockNumber := blockNumber, amount := blockReward,
             type := "mint", timestamp := ts,
             caller := "consensus_engine" }] } },
        [blockReward]), [])

/-! ## Helper lemmas -/

theorem foldl_supplyStep_append (init : Int) (l : List SupplyAuditLog)
    (e : SupplyAuditLog) :
    (l ++ [e]).foldl supplyStep init = supplyStep (l.foldl supplyStep init) e := by
  simp [List.foldl_append]

theorem GetTotalSupply_append (st : SupplyTracker) (e : SupplyAuditLog) :
    SupplyTracker.GetTotalSupply { st with auditLog := st.auditLog ++ [e] }
      = supplyStep st.GetTotalSupply e := by
  simp [SupplyTracker.GetTotalSupply, List.foldl_append]

theorem getCurrentSupply_eq_GetTotalSupply (st : SupplyTracker) :
    st.getCurrentSupply = st.GetTotalSupply := rfl

theorem mintRewardWithCap_capReached (sst : SystemSupplyTracker) (bn ts : Nat)
    (h : getMaxSupply ≤ sst.tracker.getCurrentSupply) :
    sst.MintRewardWithCap bn ts = (none, sst, []) := by
  simp [SystemSupplyTracker.MintRewardWithCap, h]

theorem mintRewardWithCap_below (sst : SystemSupplyTracker) (bn ts : Nat)
    (h : sst.tracker.getCurrentSupply < getMaxSupply) :
    sst.MintRewardWithCap bn ts =
      (none,
        { tracker := { sst.tracker with auditLog := sst.tracker.auditLog ++
          [{ blockNumber := bn,
             amount := min BlockRewardAmount
               (getMaxSupply - sst.tracker.getCurrentSupply),
             type := "mint", timestamp := ts,
             caller := "consensus_engine" }] } },
        [min BlockRewardAmount (getMaxSupply - sst.tracker.getCurrentSupply)]) := by
  have hns : ¬ getMaxSupply ≤ sst.tracker.getCurrentSupply := not_le.mpr h
  simp only [SystemSupplyTracker.MintRewardWithCap, hns, if_false]
  by_cases hc : getMaxSupply < sst.tracker.getCurrentSupply + BlockRewardAmount
  · have hmin : min BlockRewardAmount (getMaxSupply - sst.tracker.getCurrentSupply)
        = getMaxSupply - sst.tracker.getCurrentSupply :=
      min_eq_right (by omega)
    have hpos : ¬ getMaxSupply - sst.tracker.getCurrentSupply ≤ 0 := by omega
    simp [hc, hpos, hmin]
  · have hmin : min BlockRewardAmount (getMaxSupply - sst.tracker.getCurrentSupply)
        = BlockRewardAmount :=
      min_eq_left (by omega)
    simp [hc, hmin]


theorem supply_fold_eq (init : Int) (l : List SupplyAuditLog) :
    l.foldl supplyStep init = init + mintSum l - burnSum l := by
  induction l generalizing init with
  | nil => simp [mintSum, burnSum]
  | cons e l ih =>
    rw [List.foldl_cons, ih]
    simp only [supplyStep, mintSum, burnSum]
    split_ifs with h1 h2
    · rw [h1] at h2
      exact absurd h2 (by decide)
    · ring
    · ring
    · ring

theorem GetTotalSupply_eq_sums (st : SupplyTracker) :
    st.GetTotalSupply = st.initialSupply + mintSum st.auditLog - burnSum st.auditLog :=
  supply_fold_eq st.initialSupply st.auditLog

theorem Mint_success_eq (st : SupplyTracker) (a : Int) (bn : Nat) (c : String)
    (ts : Nat) (h0 : 0 < a) (hc : isConsensusEngine c = true)
    (hcap : st.getCurrentSupply + a ≤ getMaxSupply) :
    st.Mint (some a) bn c ts =
      (none, { st with auditLog := st.auditLog ++
        [{ blockNumber := bn, amount := a, type := "mint",
           timestamp := ts, caller := c }] }) := by
  simp [SupplyTracker.Mint, hc, not_lt.mpr hcap, not_le.mpr h0]

theorem Burn_success_eq (st : SupplyTracker) (a : Int) (bn : Nat) (c : String)
    (ts : Nat) (h0 : 0 < a) (hc : isConsensusEngine c = true)
    (hsuf : a ≤ st.getCurrentSupply) :
    st.Burn (some a) bn c ts =
      (none, { st with auditLog := st.auditLog ++
        [{ blockNumber := bn, amount := a, type := "burn",
           timestamp := ts, caller := c }] }) := by
  simp [SupplyTracker.Burn, hc, not_lt.mpr hsuf, not_le.mpr h0]

theorem Mint_failure_frame (st : SupplyTracker) (am : Option Int) (bn : Nat)
    (c : String) (ts : Nat) (h : (st.Mint am bn c ts).1 ≠ none) :
    (st.Mint am bn c ts).2 = st := by
  match am with
  | none => rfl
  | some a =>
    simp only [SupplyTracker.Mint] at *
    split_ifs at * <;> simp_all

theorem Burn_failure_frame (st : SupplyTracker) (am : Option Int) (bn : Nat)
    (c : String) (ts : Nat) (h : (st.Burn am bn c ts).1 ≠ none) :
    (st.Burn am bn c ts).2 = st := by
  match am with
  | none => rfl
  | some a =>
    simp only [SupplyTracker.Burn] at *
    split_ifs at * <;> simp_all

theorem Burn_supply_le (st : SupplyTracker) (am : Option Int) (bn : Nat)
    (c : String) (ts : Nat) :
    (st.Burn am bn c ts).2.getCurrentSupply ≤ st.getCurrentSupply ∧
    ((st.Burn am bn c ts).1 = none →
      (st.Burn am bn c ts).2.getCurrentSupply < st.getCurrentSupply) := by
  match am with
  | none => exact ⟨le_refl _, fun h => by simp [SupplyTracker.Burn] at h⟩
  | some a =>
    by_cases h0 : a ≤ 0
    · constructor
      · simp [SupplyTracker.Burn, h0]
      · intro h; simp [SupplyTracker.Burn, h0] at h
    · by_cases hc : isConsensusEngine c
      · by_cases hsuf : st.getCurrentSupply < a
        · constructor
          · simp [SupplyTracker.Burn, h0, hc, hsuf]
          · intro h; simp [SupplyTracker.Burn, h0, hc, hsuf] at h
        · have he := Burn_success_eq st a bn c ts (by omega) hc (by omega)
          rw [he]
          have hs : ({ st with auditLog := st.auditLog ++
              [{ blockNumber := bn, amount := a, type := "burn",
                 timestamp := ts, caller := c }] } : SupplyTracker).getCurrentSupply
              = st.getCurrentSupply - a := by
            rw [getCurrentSupply_eq_GetTotalSupply, getCurrentSupply_eq_GetTotalSupply,
              GetTotalSupply_append]
            simp [supplyStep]
          constructor
          · rw [hs]; omega
          · intro _; rw [hs]; omega
      · constructor
        · simp [SupplyTracker.Burn, h0, hc]
        · intro h; simp [SupplyTracker.Burn, h0, hc] at h

/-- C2: the cap-clamped block reward equals the spec's `ComputeMintable`
(zero at or above the cap, `maxSupply - currentSupply` when that headroom is
positive but below the nominal reward, the full nominal reward otherwise —
that is, `min(nominalReward, maxSupply - currentSupply)` clamped to zero at
the cap), both for `MintRewardWithCap` (audit-log supply) and for
`MintBlockReward` (closed-form supply); in particular a tracker at
`maxSupply - 0.5e18` mints exactly `0.5e18` and a tracker at `maxSupply`
mints `0`. -/
theorem mintable_clamp_correct :
    (∀ (sst : SystemSupplyTracker) (bn ts : Nat),
      mintedTotal (sst.MintRewardWithCap bn ts).2.2
        = ComputeMintable sst.tracker.getCurrentSupply getMaxSupply
            BlockRewardAmount) ∧
    (∀ (cache : Option Int) (alloc : Option (List (String × GenesisAccount)))
        (bn : Nat),
      mintedTotal (MintBlockReward cache alloc bn).2.1
        = ComputeMintable (getCurrentSupplyFromBlockNumber cache alloc bn).1
            getMaxSupply BlockRewardAmount) ∧
    mintedTotal ((NewSystemSupplyTracker
        (getMaxSupply - 500000000000000000)).MintRewardWithCap 1 0).2.2
      = 500000000000000000 ∧
    mintedTotal ((NewSystemSupplyTracker getMaxSupply).MintRewardWithCap 1 0).2.2
      = 0 := by
  refine ⟨?_, ?_, by decide, by decide⟩
  · intro sst bn ts
    by_cases h : getMaxSupply ≤ sst.tracker.getCurrentSupply
    · rw [mintRewardWithCap_capReached sst bn ts h]
      simp [mintedTotal, ComputeMintable, h]
    · rw [mintRewardWithCap_below sst bn ts (by omega)]
      simp [mintedTotal, ComputeMintable, h]
  · intro cache alloc bn
    simp only [MintBlockReward, ComputeMintable]
    set cur := (getCurrentSupplyFromBlockNumber cache alloc bn).1 with hcur
    by_cases h1 : getMaxSupply < cur + BlockRewardAmount
    · by_cases h2 : getMaxSupply - cur ≤ 0
      · have h3 : getMaxSupply ≤ cur := by omega
        simp [h1, h2, h3, mintedTotal]
      · have h3 : ¬ getMaxSupply ≤ cur := by omega
        have hmin : min BlockRewardAmount (getMaxSupply - cur)
            = getMaxSupply - cur := min_eq_right (by omega)
        simp [h1, h2, h3, hmin, mintedTotal]
    · have h3 : ¬ getMaxSupply ≤ cur := by
        have : (0:Int) < BlockRewardAmount := by decide
        omega
      have hmin : min BlockRewardAmount (getMaxSupply - cur)
          = BlockRewardAmount := min_eq_left (by omega)
      simp [h1, h3, hmin, mintedTotal]

/-- C10: `MintRewardWithCap` reports success (`nil` error) on every input;
at or above the cap it is a silent no-op (no audit entry, no `AddBalance`
call); below the cap it appends exactly one mint entry and performs exactly
one `AddBalance` call, both with the clamped amount. -/
theorem mintRewardWithCap_never_errors (sst : SystemSupplyTracker)
    (bn ts : Nat) :
    (sst.MintRewardWithCap bn ts).1 = none ∧
    (getMaxSupply ≤ sst.tracker.getCurrentSupply →
      sst.MintRewardWithCap bn ts = (none, sst, [])) ∧
    (sst.tracker.getCurrentSupply < getMaxSupply →
      (sst.MintRewardWithCap bn ts).2.1.tracker.auditLog
          = sst.tracker.auditLog ++
            [{ blockNumber := bn,
               amount := min BlockRewardAmount
                 (getMaxSupply - sst.tracker.getCurrentSupply),
               type := "mint", timestamp := ts,
               caller := "consensus_engine" }] ∧
      (sst.MintRewardWithCap bn ts).2.2
          = [min BlockRewardAmount
              (getMaxSupply - sst.tracker.getCurrentSupply)]) := by
  refine ⟨?_, ?_, ?_⟩
  · by_cases h : getMaxSupply ≤ sst.tracker.getCurrentSupply
    · rw [mintRewardWithCap_capReached sst bn ts h]
    · rw [mintRewardWithCap_below sst bn ts (by omega)]
  · intro h
    exact mintRewardWithCap_capReached sst bn ts h
  · intro h
    rw [mintRewardWithCap_below sst bn ts h]
    exact ⟨rfl, rfl⟩

/-- Witness for C10 at concrete inputs: a tracker exactly at the cap is a
silent successful no-op, and a fresh zero-supply tracker mints the clamped
amount. -/
theorem mintRewardWithCap_never_errors_witness :
    ((NewSystemSupplyTracker getMaxSupply).MintRewardWithCap 1 0
        = (none, NewSystemSupplyTracker getMaxSupply, [])) ∧
    ((NewSystemSupplyTracker 0).MintRewardWithCap 1 0).2.2
        = [min BlockRewardAmount
            (getMaxSupply - (NewSystemSupplyTracker 0).tracker.getCurrentSupply)] :=
  ⟨(mintRewardWithCap_never_errors (NewSystemSupplyTracker getMaxSupply) 1 0).2.1
      (by decide),
   ((mintRewardWithCap_never_errors (NewSystemSupplyTracker 0) 1 0).2.2
      (by decide)).2⟩

/-- C3: `Mint` fails with `ErrInvalidAmount` on a non-positive (or `nil`)
amount, with `ErrUnauthorizedMint` when the caller fails the authorization
check, and with `ErrSupplyCapExceeded` when `currentSupply + amount`
exceeds `maxSupply`; on success it appends exactly one mint entry; on every
failure the tracker (audit log, hence derived supply) is unchanged. -/
theorem mint_error_handling (st : SupplyTracker) (a : Int) (bn : Nat)
    (c : String) (ts : Nat) :
    (st.Mint none bn c ts = (some .invalidAmount, st)) ∧
    (a ≤ 0 → st.Mint (some a) bn c ts = (some .invalidAmount, st)) ∧
    (0 < a → isConsensusEngine c = false →
      st.Mint (some a) bn c ts = (some .unauthorizedMint, st)) ∧
    (0 < a → isConsensusEngine c = true →
      getMaxSupply < st.getCurrentSupply + a →
      st.Mint (some a) bn c ts = (some .supplyCapExceeded, st)) ∧
    (0 < a → isConsensusEngine c = true →
      st.getCurrentSupply + a ≤ getMaxSupply →
      st.Mint (some a) bn c ts =
        (none, { st with auditLog := st.auditLog ++
          [{ blockNumber := bn, amount := a, type := "mint",
             timestamp := ts, caller := c }] })) ∧
    ((st.Mint (some a) bn c ts).1 ≠ none →
      (st.Mint (some a) bn c ts).2 = st ∧
      (st.Mint (some a) bn c ts).2.GetTotalSupply = st.GetTotalSupply) := by
  refine ⟨rfl, ?_, ?_, ?_, ?_, ?_⟩
  · intro h0
    simp [SupplyTracker.Mint, h0]
  · intro h0 hc
    simp [SupplyTracker.Mint, hc, not_le.mpr h0]
  · intro h0 hc hcap
    simp [SupplyTracker.Mint, hc, hcap, not_le.mpr h0]
  · intro h0 hc hcap
    exact Mint_success_eq st a bn c ts h0 hc hcap
  · intro h
    have := Mint_failure_frame st (some a) bn c ts h
    exact ⟨this, by rw [this]⟩

/-- Witness for C3 at concrete inputs: on a fresh zero-supply tracker,
`Mint(-1)` and `Mint(0)` fail with `ErrInvalidAmount`, `Mint(5)` from an
unauthorized caller fails with `ErrUnauthorizedMint` leaving the tracker
unchanged, and `Mint(5)` from the consensus engine succeeds appending one
entry. -/
theorem mint_error_handling_witness :
    ((NewSupplyTracker 0).Mint (some (-1)) 1 "consensus_engine" 0
        = (some .invalidAmount, NewSupplyTracker 0)) ∧
    ((NewSupplyTracker 0).Mint (some 0) 1 "consensus_engine" 0
        = (some .invalidAmount, NewSupplyTracker 0)) ∧
    ((NewSupplyTracker 0).Mint (some 5) 1 "attacker" 0
        = (some .unauthorizedMint, NewSupplyTracker 0)) ∧
    ((NewSupplyTracker getMaxSupply).Mint (some 5) 1 "consensus_engine" 0
        = (some .supplyCapExceeded, NewSupplyTracker getMaxSupply)) ∧
    ((NewSupplyTracker 0).Mint (some 5) 1 "consensus_engine" 0
        = (none, { NewSupplyTracker 0 with auditLog :=
            (NewSupplyTracker 0).auditLog ++
            [{ blockNumber := 1, amount := 5, type := "mint",
               timestamp := 0, caller := "consensus_engine" }] })) :=
  ⟨(mint_error_handling (NewSupplyTracker 0) (-1) 1 "consensus_engine" 0).2.1
      (by decide),
   (mint_error_handling (NewSupplyTracker 0) 0 1 "consensus_engine" 0).2.1
      (by decide),
   (mint_error_handling (NewSupplyTracker 0) 5 1 "attacker" 0).2.2.1
      (by decide) (by decide),
   (mint_error_handling (NewSupplyTracker getMaxSupply) 5 1 "consensus_engine"
      0).2.2.2.1 (by decide) (by decide) (by decide),
   (mint_error_handling (NewSupplyTracker 0) 5 1 "consensus_engine" 0).2.2.2.2.1
      (by decide) (by decide) (by decide)⟩

/-- C5: `Burn` performs the same amount and authorization checks as `Mint`,
fails with `ErrInsufficientSupply` when the amount exceeds the current
supply, appends exactly one burn entry on success, and leaves the tracker
(audit log, hence derived supply) unchanged on any failure. -/
theorem burn_error_handling (st : SupplyTracker) (a : Int) (bn : Nat)
    (c : String) (ts : Nat) :
    (st.Burn none bn c ts = (some .invalidAmount, st)) ∧
    (a ≤ 0 → st.Burn (some a) bn c ts = (some .invalidAmount, st)) ∧
    (0 < a → isConsensusEngine c = false →
      st.Burn (some a) bn c ts = (some .unauthorizedMint, st)) ∧
    (0 < a → isConsensusEngine c = true →
      st.getCurrentSupply < a →
      st.Burn (some a) bn c ts = (some .insufficientSupply, st)) ∧
    (0 < a → isConsensusEngine c = true →
      a ≤ st.getCurrentSupply →
      st.Burn (some a) bn c ts =
        (none, { st with auditLog := st.auditLog ++
          [{ blockNumber := bn, amount := a, type := "burn",
             timestamp := ts, caller := c }] })) ∧
    ((st.Burn (some a) bn c ts).1 ≠ none →
      (st.Burn (some a) bn c ts).2 = st ∧
      (st.Burn (some a) bn c ts).2.GetTotalSupply = st.GetTotalSupply) := by
  refine ⟨rfl, ?_, ?_, ?_, ?_, ?_⟩
  · intro h0
    simp [SupplyTracker.Burn, h0]
  · intro h0 hc
    simp [SupplyTracker.Burn, hc, not_le.mpr h0]
  · intro h0 hc hsuf
    simp [SupplyTracker.Burn, hc, hsuf, not_le.mpr h0]
  · intro h0 hc hsuf
    exact Burn_success_eq st a bn c ts h0 hc hsuf
  · intro h
    have := Burn_failure_frame st (some a) bn c ts h
    exact ⟨this, by rw [this]⟩

/-- Witness for C5 at concrete inputs: burning more than the current supply
fails with `ErrInsufficientSupply` leaving the tracker unchanged, and a
burn within the supply from the consensus engine succeeds appending one
entry. -/
theorem burn_error_handling_witness :
    ((NewSupplyTracker 10).Burn (some 11) 2 "consensus_engine" 0
        = (some .insufficientSupply, NewSupplyTracker 10)) ∧
    ((NewSupplyTracker 10).Burn (some (-1)) 2 "consensus_engine" 0
        = (some .invalidAmount, NewSupplyTracker 10)) ∧
    ((NewSupplyTracker 10).Burn (some 4) 2 "attacker" 0
        = (some .unauthorizedMint, NewSupplyTracker 10)) ∧
    ((NewSupplyTracker 10).Burn (some 4) 2 "consensus_engine" 0
        = (none, { NewSupplyTracker 10 with auditLog :=
            (NewSupplyTracker 10).auditLog ++
            [{ blockNumber := 2, amount := 4, type := "burn",
               timestamp := 0, caller := "consensus_engine" }] })) :=
  ⟨(burn_error_handling (NewSupplyTracker 10) 11 2 "consensus_engine" 0).2.2.2.1
      (by decide) (by decide) (by decide),
   (burn_error_handling (NewSupplyTracker 10) (-1) 2 "consensus_engine" 0).2.1
      (by decide),
   (burn_error_handling (NewSupplyTracker 10) 4 2 "attacker" 0).2.2.1
      (by decide) (by decide),
   (burn_error_handling (NewSupplyTracker 10) 4 2 "consensus_engine" 0).2.2.2.2.1
      (by decide) (by decide) (by decide)⟩

theorem MintTraced_fst (st : SupplyTracker) (am : Option Int) (bn : Nat)
    (c : String) (ts : Nat) :
    (st.MintTraced am bn c ts).1 = st.Mint am bn c ts := by
  match am with
  | none => rfl
  | some a =>
    simp only [SupplyTracker.MintTraced, SupplyTracker.Mint]
    split_ifs <;> rfl

theorem BurnTraced_fst (st : SupplyTracker) (am : Option Int) (bn : Nat)
    (c : String) (ts : Nat) :
    (st.BurnTraced am bn c ts).1 = st.Burn am bn c ts := by
  match am with
  | none => rfl
  | some a =>
    simp only [SupplyTracker.BurnTraced, SupplyTracker.Burn]
    split_ifs <;> rfl

theorem MintRewardWithCapTraced_fst (sst : SystemSupplyTracker)
    (bn ts : Nat) :
    (sst.MintRewardWithCapTraced bn ts).1 = sst.MintRewardWithCap bn ts := by
  simp only [SystemSupplyTracker.MintRewardWithCapTraced,
    SystemSupplyTracker.MintRewardWithCap]
  split_ifs <;> rfl

/-- C4 counterexample: `MintRewardWithCap` on a fresh zero-supply tracker
appends a mint audit entry (the log grows to length 1, and the entry is of
type `mint`), yet its guard trace is empty — `isConsensusEngine` is
evaluated on no caller at all during the call (the Go body at
`part_000:243` appends directly with a hardcoded caller string).  So there
is an internal operation that appends a mint audit entry without the
authorization check being evaluated: a privileged bypass path, refuting
the claim as stated. -/
theorem authorization_bypass_counterexample :
    ((NewSystemSupplyTracker 0).MintRewardWithCapTraced 1 0).2 = [] ∧
    ((NewSystemSupplyTracker
        0).MintRewardWithCapTraced 1 0).1.2.1.tracker.auditLog.length = 1 ∧
    (((NewSystemSupplyTracker
        0).MintRewardWithCapTraced 1 0).1.2.1.tracker.auditLog.headD
      { blockNumber := 0, amount := 0, type := "", timestamp := 0,
        caller := "" }).type = "mint" := by
  decide

/-- C4 (amended): `isConsensusEngine` accepts exactly the all-zero address
string and the literal `consensus_engine` token (exact string equality, no
wildcard or prefix matching).  The external entry points do evaluate the
check: whenever `Mint` or `Burn` appends an audit entry (i.e. succeeds),
the call evaluated `isConsensusEngine` exactly once, on its caller
argument, and the check accepted it.  The internal `MintRewardWithCap`,
however, is a privileged bypass: it evaluates the check on no caller at
all on any input, and when it appends a mint entry the entry instead
carries the hardcoded caller `consensus_engine`, which the check would
accept — so every appended entry still carries an authorized caller, but
the check is not evaluated on that internal append path. -/
theorem authorization_guard_evaluation :
    (∀ c : String, isConsensusEngine c = true ↔
      c = "0x0000000000000000000000000000000000000000" ∨
      c = "consensus_engine") ∧
    (∀ (st : SupplyTracker) (am : Option Int) (bn : Nat) (c : String)
        (ts : Nat), (st.MintTraced am bn c ts).1.1 = none →
      (st.MintTraced am bn c ts).2 = [c] ∧ isConsensusEngine c = true) ∧
    (∀ (st : SupplyTracker) (am : Option Int) (bn : Nat) (c : String)
        (ts : Nat), (st.BurnTraced am bn c ts).1.1 = none →
      (st.BurnTraced am bn c ts).2 = [c] ∧ isConsensusEngine c = true) ∧
    (∀ (sst : SystemSupplyTracker) (bn ts : Nat),
      (sst.MintRewardWithCapTraced bn ts).2 = []) ∧
    (∀ (sst : SystemSupplyTracker) (bn ts : Nat) (e : SupplyAuditLog),
      e ∈ (sst.MintRewardWithCapTraced bn ts).1.2.1.tracker.auditLog →
      e ∈ sst.tracker.auditLog ∨ isConsensusEngine e.caller = true) := by
  refine ⟨?_, ?_, ?_, ?_, ?_⟩
  · intro c
    simp [isConsensusEngine]
  · intro st am bn c ts h
    match am with
    | none => exact Option.noConfusion h
    | some a =>
      by_cases h0 : a ≤ 0
      · simp [SupplyTracker.MintTraced, h0] at h
      · by_cases hc : isConsensusEngine c
        · refine ⟨?_, hc⟩
          simp only [SupplyTracker.MintTraced]
          rw [if_neg h0]
          split_ifs <;> rfl
        · simp [SupplyTracker.MintTraced, h0, hc] at h
  · intro st am bn c ts h
    match am with
    | none => exact Option.noConfusion h
    | some a =>
      by_cases h0 : a ≤ 0
      · simp [SupplyTracker.BurnTraced, h0] at h
      · by_cases hc : isConsensusEngine c
        · refine ⟨?_, hc⟩
          simp only [SupplyTracker.BurnTraced]
          rw [if_neg h0]
          split_ifs <;> rfl
        · simp [SupplyTracker.BurnTraced, h0, hc] at h
  · intro sst bn ts
    simp only [SystemSupplyTracker.MintRewardWithCapTraced]
    split_ifs <;> rfl
  · intro sst bn ts e he
    rw [MintRewardWithCapTraced_fst] at he
    by_cases h : getMaxSupply ≤ sst.tracker.getCurrentSupply
    · rw [mintRewardWithCap_capReached sst bn ts h] at he
      exact Or.inl he
    · rw [mintRewardWithCap_below sst bn ts (by omega)] at he
      simp only [List.mem_append, List.mem_singleton] at he
      rcases he with he | he
      · exact Or.inl he
      · rw [he]
        exact Or.inr (by simp [isConsensusEngine])

/-- Witness for C4 at concrete inputs: the zero-address identity is
accepted through the theorem's iff, and a concrete successful mint's guard
trace is exactly its (accepted) caller. -/
theorem authorization_guard_evaluation_witness :
    isConsensusEngine "0x0000000000000000000000000000000000000000" = true ∧
    (((NewSupplyTracker 0).MintTraced (some 5) 1 "consensus_engine" 0).2
        = ["consensus_engine"] ∧
      isConsensusEngine "consensus_engine" = true) :=
  ⟨(authorization_guard_evaluation.1
      "0x0000000000000000000000000000000000000000").mpr (Or.inl rfl),
   authorization_guard_evaluation.2.1 (NewSupplyTracker 0) (some 5) 1
      "consensus_engine" 0 (by decide)⟩

/-- C6: fee distribution is a successful no-op on an absent (`nil`) or zero
fee total; otherwise it credits `floor(totalFees / 2)` to the owner and the
rest to the block producer, the two shares always summing exactly to
`totalFees` (the producer absorbing the odd unit); e.g. 101 splits as
50 and 51. -/
theorem fee_distribution_exact :
    (∀ o p : String, DistributeTxFeesToValidator none o p = (none, [])) ∧
    (∀ o p : String, DistributeTxFeesToValidator (some 0) o p = (none, [])) ∧
    (∀ (f : Int) (o p : String), f ≠ 0 →
      DistributeTxFeesToValidator (some f) o p
        = (none, [(o, Int.fdiv f 2), (p, f - Int.fdiv f 2)])) ∧
    (∀ (f : Int) (o p : String),
      mintedTotal ((DistributeTxFeesToValidator (some f) o p).2.map Prod.snd)
        = if f = 0 then 0 else f) ∧
    DistributeTxFeesToValidator (some 101) "0xaaaa" "0xbbbb"
      = (none, [("0xaaaa", 50), ("0xbbbb", 51)]) := by
  refine ⟨fun o p => rfl, fun o p => rfl, ?_, ?_, by decide⟩
  · intro f o p hf
    have hfd : Int.fdiv f 2 = f / 2 := Int.fdiv_eq_ediv f (by norm_num)
    simp [DistributeTxFeesToValidator, hf, hfd]
  · intro f o p
    by_cases hf : f = 0
    · simp [DistributeTxFeesToValidator, hf, mintedTotal]
    · simp only [DistributeTxFeesToValidator, hf, if_false]
      simp [mintedTotal]

/-- Witness for C6 at a concrete input: distributing 101 gives the owner
`floor(101/2) = 50` and the producer the remaining 51. -/
theorem fee_distribution_exact_witness :
    DistributeTxFeesToValidator (some 101) "0xaaaa" "0xbbbb"
      = (none, [("0xaaaa", Int.fdiv 101 2), ("0xbbbb", 101 - Int.fdiv 101 2)]) :=
  fee_distribution_exact.2.2.1 101 "0xaaaa" "0xbbbb" (by decide)

/-- C7: the genesis total sums every account's balance in the allocation
map except the zero/burn address, treats a `nil` balance as zero, and the
concrete allocation with the zero address at 500 plus accounts at 100 and
200 totals 300; `getGenesisTotal` caches the computed value on first use
and thereafter returns the cached value. -/
theorem genesis_total_correct :
    (∀ (pre suf : List (String × GenesisAccount)) (addr : String)
        (acc : GenesisAccount), acc.balance = none →
      calculateGenesisTotal (some (pre ++ (addr, acc) :: suf))
        = calculateGenesisTotal (some (pre ++ suf))) ∧
    (∀ (pre suf : List (String × GenesisAccount)) (acc : GenesisAccount),
      calculateGenesisTotal (some (pre ++ (ZeroAddress, acc) :: suf))
        = calculateGenesisTotal (some (pre ++ suf))) ∧
    (∀ alloc, getGenesisTotal none alloc
        = (calculateGenesisTotal alloc, some (calculateGenesisTotal alloc))) ∧
    (∀ (v : Int) alloc, getGenesisTotal (some v) alloc = (v, some v)) ∧
    calculateGenesisTotal (some [(ZeroAddress, { balance := some 500 }),
        ("0xaaaa", { balance := some 100 }),
        ("0xbbbb", { balance := some 200 })]) = 300 := by
  refine ⟨?_, ?_, fun alloc => rfl, fun v alloc => rfl, by decide⟩
  · intro pre suf addr acc hb
    simp only [calculateGenesisTotal, List.foldl_append, List.foldl_cons, hb]
    split_ifs <;> rfl
  · intro pre suf acc
    simp [calculateGenesisTotal, List.foldl_append, List.foldl_cons]

/-- Witness for C7 at a concrete input: an account carrying a `nil` balance
contributes nothing to the genesis total. -/
theorem genesis_total_correct_witness :
    calculateGenesisTotal (some [("0xcccc", { balance := none })])
      = calculateGenesisTotal (some []) :=
  genesis_total_correct.1 [] [] "0xcccc" { balance := none } rfl

theorem applyOp_initialSupply (st : SupplyTracker) (op : SupplyOp) :
    (applyOp st op).initialSupply = st.initialSupply := by
  match op with
  | .mintOp am bn c ts =>
    match am with
    | none => rfl
    | some a =>
      simp only [applyOp, SupplyTracker.Mint]
      split_ifs <;> rfl
  | .burnOp am bn c ts =>
    match am with
    | none => rfl
    | some a =>
      simp only [applyOp, SupplyTracker.Burn]
      split_ifs <;> rfl

theorem execOps_initialSupply (ops : List SupplyOp) (st : SupplyTracker) :
    (execOps st ops).initialSupply = st.initialSupply := by
  induction ops generalizing st with
  | nil => rfl
  | cons op ops ih =>
    rw [execOps, List.foldl_cons]
    rw [show (ops.foldl applyOp (applyOp st op)) = execOps (applyOp st op) ops
      from rfl]
    rw [ih (applyOp st op), applyOp_initialSupply]

theorem applyOp_cap (st : SupplyTracker) (op : SupplyOp)
    (h : st.GetTotalSupply ≤ getMaxSupply) :
    (applyOp st op).GetTotalSupply ≤ getMaxSupply := by
  match op with
  | .mintOp am bn c ts =>
    show (st.Mint am bn c ts).2.GetTotalSupply ≤ getMaxSupply
    match am with
    | none => exact h
    | some a =>
      by_cases h0 : a ≤ 0
      · rw [show (st.Mint (some a) bn c ts).2 = st from by
          simp [SupplyTracker.Mint, h0]]
        exact h
      · by_cases hc : isConsensusEngine c
        · by_cases hcap : getMaxSupply < st.getCurrentSupply + a
          · rw [show (st.Mint (some a) bn c ts).2 = st from by
              simp [SupplyTracker.Mint, h0, hc, hcap]]
            exact h
          · rw [Mint_success_eq st a bn c ts (by omega) hc (by omega)]
            have hs := GetTotalSupply_append st
              { blockNumber := bn, amount := a, type := "mint",
                timestamp := ts, caller := c }
            rw [hs]
            simp only [supplyStep, if_pos rfl]
            rw [← getCurrentSupply_eq_GetTotalSupply]
            omega
        · rw [show (st.Mint (some a) bn c ts).2 = st from by
            simp only [SupplyTracker.Mint]
            split_ifs
            simp_all]
          exact h
  | .burnOp am bn c ts =>
    show (st.Burn am bn c ts).2.GetTotalSupply ≤ getMaxSupply
    have hb := (Burn_supply_le st am bn c ts).1
    rw [getCurrentSupply_eq_GetTotalSupply, getCurrentSupply_eq_GetTotalSupply]
      at hb
    omega

theorem execOps_cap (ops : List SupplyOp) (st : SupplyTracker)
    (h : st.GetTotalSupply ≤ getMaxSupply) :
    (execOps st ops).GetTotalSupply ≤ getMaxSupply := by
  induction ops generalizing st with
  | nil => exact h
  | cons op ops ih =>
    rw [execOps, List.foldl_cons]
    exact ih (applyOp st op) (applyOp_cap st op h)

/-- C1 counterexample: the claim quantifies over every `SupplyTracker`, but
nothing in the code keeps `initialSupply` at or below `maxSupply`
(`NewSupplyTracker` accepts any value, and
`UpdateSupplyTrackerWithTotalSupply` overwrites `initialSupply` with an
externally measured total).  Starting from `initialSupply = maxSupply + 2`,
a `Burn` of 1 from the consensus engine succeeds, and afterwards
`GetTotalSupply` still exceeds `maxSupply` — so the cap bound does not hold
after every successful operation. -/
theorem supply_invariant_counterexample :
    (((NewSupplyTracker (getMaxSupply + 2)).Burn (some 1) 1
        "consensus_engine" 0).1 = none) ∧
    getMaxSupply <
      ((NewSupplyTracker (getMaxSupply + 2)).Burn (some 1) 1
        "consensus_engine" 0).2.GetTotalSupply := by
  decide

/-- C1 (amended): for every tracker whose initial supply is at most
`maxSupply`, after any sequence of `Mint`/`Burn` requests (failed requests
leave the state unchanged, so this covers every prefix of successful
operations) `GetTotalSupply` equals `initialSupply` plus the sum of the
logged mint amounts minus the sum of the logged burn amounts, and never
exceeds `maxSupply`. -/
theorem supply_invariant (initial : Int) (hinit : initial ≤ getMaxSupply)
    (ops : List SupplyOp) :
    (execOps (NewSupplyTracker initial) ops).GetTotalSupply
        = initial
          + mintSum (execOps (NewSupplyTracker initial) ops).auditLog
          - burnSum (execOps (NewSupplyTracker initial) ops).auditLog ∧
    (execOps (NewSupplyTracker initial) ops).GetTotalSupply ≤ getMaxSupply := by
  constructor
  · have h1 := GetTotalSupply_eq_sums (execOps (NewSupplyTracker initial) ops)
    rwa [execOps_initialSupply] at h1
  · exact execOps_cap ops (NewSupplyTracker initial) hinit

/-- Witness for C1 at a concrete input: from initial supply 0, a mint of 5
then a burn of 2 leave a total of `0 + 5 - 2 = 3`, within the cap. -/
theorem supply_invariant_witness :
    (execOps (NewSupplyTracker 0)
        [SupplyOp.mintOp (some 5) 1 "consensus_engine" 0,
         SupplyOp.burnOp (some 2) 2 "consensus_engine" 0]).GetTotalSupply
      = 0
        + mintSum (execOps (NewSupplyTracker 0)
            [SupplyOp.mintOp (some 5) 1 "consensus_engine" 0,
             SupplyOp.burnOp (some 2) 2 "consensus_engine" 0]).auditLog
        - burnSum (execOps (NewSupplyTracker 0)
            [SupplyOp.mintOp (some 5) 1 "consensus_engine" 0,
             SupplyOp.burnOp (some 2) 2 "consensus_engine" 0]).auditLog ∧
    (execOps (NewSupplyTracker 0)
        [SupplyOp.mintOp (some 5) 1 "consensus_engine" 0,
         SupplyOp.burnOp (some 2) 2 "consensus_engine" 0]).GetTotalSupply
      ≤ getMaxSupply :=
  supply_invariant 0 (by decide)
    [SupplyOp.mintOp (some 5) 1 "consensus_engine" 0,
     SupplyOp.burnOp (some 2) 2 "consensus_engine" 0]

/-- C8 (code bug): the Go `GetAuditLog` copies the slice, but
`SupplyAuditLog.Amount` is a `*big.Int`, so the copied entries share their
`Amount` pointers with the internal log — the copy is shallow, although the
source comments say the copy is returned "to prevent external
modification".  Concretely: a tracker with initial supply 5 (cell 0) and
one mint entry of 3 (cell 1) has total supply 8; a caller takes the
returned copy, follows its first entry's `Amount` pointer and sets the cell
to 100 (as `copy[0].Amount.SetInt64(100)` would); the tracker's
`GetTotalSupply` then reports 105. -/
theorem auditLog_copy_is_shallow :
    GetTotalSupplyRef [5, 3]
      { initialRef := 0,
        auditLog := [{ blockNumber := 1, amountRef := 1, type := "mint",
                       timestamp := 0, caller := "consensus_engine" }] } = 8 ∧
    ((GetAuditLogRef
        { initialRef := 0,
          auditLog := [{ blockNumber := 1, amountRef := 1, type := "mint",
                         timestamp := 0, caller := "consensus_engine" }] }).headD
      { blockNumber := 0, amountRef := 0, type := "", timestamp := 0,
        caller := "" }).amountRef = 1 ∧
    GetTotalSupplyRef
      (setCell [5, 3]
        ((GetAuditLogRef
            { initialRef := 0,
              auditLog := [{ blockNumber := 1, amountRef := 1, type := "mint",
                             timestamp := 0,
                             caller := "consensus_engine" }] }).headD
          { blockNumber := 0, amountRef := 0, type := "", timestamp := 0,
            caller := "" }).amountRef 100)
      { initialRef := 0,
        auditLog := [{ blockNumber := 1, amountRef := 1, type := "mint",
                       timestamp := 0, caller := "consensus_engine" }] }
      = 105 := by
  decide

theorem mintRewardWithCap_supply_delta (sst : SystemSupplyTracker)
    (bn ts : Nat) :
    (sst.MintRewardWithCap bn ts).2.1.tracker.getCurrentSupply
      = sst.tracker.getCurrentSupply
        + mintedTotal (sst.MintRewardWithCap bn ts).2.2 := by
  by_cases h : getMaxSupply ≤ sst.tracker.getCurrentSupply
  · rw [mintRewardWithCap_capReached sst bn ts h]
    simp [mintedTotal]
  · rw [mintRewardWithCap_below sst bn ts (by omega)]
    have hs := GetTotalSupply_append sst.tracker
      { blockNumber := bn,
        amount := min BlockRewardAmount
          (getMaxSupply - sst.tracker.getCurrentSupply),
        type := "mint", timestamp := ts, caller := "consensus_engine" }
    rw [getCurrentSupply_eq_GetTotalSupply, hs,
      ← getCurrentSupply_eq_GetTotalSupply]
    simp [supplyStep, mintedTotal]

theorem mintRewardWithCap_minted_le (sst : SystemSupplyTracker)
    (bn ts : Nat) :
    mintedTotal (sst.MintRewardWithCap bn ts).2.2 ≤ BlockRewardAmount := by
  by_cases h : getMaxSupply ≤ sst.tracker.getCurrentSupply
  · rw [mintRewardWithCap_capReached sst bn ts h]
    simp [mintedTotal]
    decide
  · rw [mintRewardWithCap_below sst bn ts (by omega)]
    simp [mintedTotal]

theorem stepChain_inv (g : Int) (s : ChainState) (ev : ChainEvent)
    (h1 : s.sst.tracker.getCurrentSupply
      ≤ g + (s.height : Int) * BlockRewardAmount)
    (h2 : s.divergent = true →
      s.sst.tracker.getCurrentSupply
        < g + (s.height : Int) * BlockRewardAmount) :
    (stepChain s ev).sst.tracker.getCurrentSupply
      ≤ g + ((stepChain s ev).height : Int) * BlockRewardAmount ∧
    ((stepChain s ev).divergent = true →
      (stepChain s ev).sst.tracker.getCurrentSupply
        < g + ((stepChain s ev).height : Int) * BlockRewardAmount) := by
  match ev with
  | .rewardBlock ts =>
    have hd := mintRewardWithCap_supply_delta s.sst (s.height + 1) ts
    have hle := mintRewardWithCap_minted_le s.sst (s.height + 1) ts
    have hht : (((s.height + 1 : Nat)) : Int) * BlockRewardAmount
        = (s.height : Int) * BlockRewardAmount + BlockRewardAmount := by
      push_cast
      ring
    constructor
    · show (s.sst.MintRewardWithCap (s.height + 1) ts).2.1.tracker.getCurrentSupply
        ≤ g + (((s.height + 1 : Nat)) : Int) * BlockRewardAmount
      rw [hd, hht]
      linarith
    · intro hdiv
      show (s.sst.MintRewardWithCap (s.height + 1) ts).2.1.tracker.getCurrentSupply
        < g + (((s.height + 1 : Nat)) : Int) * BlockRewardAmount
      have hdiv2 : s.divergent = true ∨
          mintedTotal (s.sst.MintRewardWithCap (s.height + 1) ts).2.2
            ≠ BlockRewardAmount := by
        have : (s.divergent
            || (mintedTotal (s.sst.MintRewardWithCap (s.height + 1) ts).2.2
                != BlockRewardAmount)) = true := hdiv
        rcases Bool.or_eq_true_iff.mp this with h | h
        · exact Or.inl h
        · exact Or.inr (bne_iff_ne.mp h)
      rw [hd, hht]
      rcases hdiv2 with h | h
      · have := h2 h
        linarith
      · have : mintedTotal (s.sst.MintRewardWithCap (s.height + 1) ts).2.2
            < BlockRewardAmount := lt_of_le_of_ne hle h
        linarith
  | .burnEvent a bn c ts =>
    have hb := Burn_supply_le s.sst.tracker a bn c ts
    constructor
    · show (s.sst.tracker.Burn a bn c ts).2.getCurrentSupply
        ≤ g + (s.height : Int) * BlockRewardAmount
      linarith [hb.1]
    · intro hdiv
      show (s.sst.tracker.Burn a bn c ts).2.getCurrentSupply
        < g + (s.height : Int) * BlockRewardAmount
      have hdiv2 : s.divergent = true ∨
          (s.sst.tracker.Burn a bn c ts).1 = none := by
        have : (s.divergent || ((s.sst.tracker.Burn a bn c ts).1).isNone)
            = true := hdiv
        rcases Bool.or_eq_true_iff.mp this with h | h
        · exact Or.inl h
        · exact Or.inr (Option.isNone_iff_eq_none.mp h)
      rcases hdiv2 with h | h
      · linarith [h2 h, hb.1]
      · linarith [hb.2 h]

theorem chainFold_inv (g : Int) (evs : List ChainEvent) (s : ChainState)
    (h1 : s.sst.tracker.getCurrentSupply
      ≤ g + (s.height : Int) * BlockRewardAmount)
    (h2 : s.divergent = true →
      s.sst.tracker.getCurrentSupply
        < g + (s.height : Int) * BlockRewardAmount) :
    (evs.foldl stepChain s).sst.tracker.getCurrentSupply
      ≤ g + ((evs.foldl stepChain s).height : Int) * BlockRewardAmount ∧
    ((evs.foldl stepChain s).divergent = true →
      (evs.foldl stepChain s).sst.tracker.getCurrentSupply
        < g + ((evs.foldl stepChain s).height : Int) * BlockRewardAmount) := by
  induction evs generalizing s with
  | nil => exact ⟨h1, h2⟩
  | cons ev evs ih =>
    rw [List.foldl_cons]
    have hstep := stepChain_inv g s ev h1 h2
    exact ih (stepChain s ev) hstep.1 hstep.2

/-- C9 counterexample: the closed form converts the `uint64` block number
through `int64`, so at `blockNumber = 2^63` (a valid `uint64`) the cast
wraps negative and the function does not return
`genesisTotal + blockNumber * nominalReward` (here with cached genesis
total 0). -/
theorem closed_form_counterexample :
    (getCurrentSupplyFromBlockNumber (some 0) none (2 ^ 63)).1
      ≠ 0 + ((2 ^ 63 : Nat) : Int) * BlockRewardAmount := by
  decide

/-- C9 (amended): for every block number below `2^63` (before the `int64`
cast wraps) the closed form returns
`genesisTotal + blockNumber * nominalReward`; and on every block-production
history (one `MintRewardWithCap` per block with interleaved `Burn`
requests) in which at least one burn succeeded or at least one block minted
anything other than the full nominal reward, the audit-log-derived
`GetTotalSupply` is strictly below — in particular different from — the
closed-form value at the history's height: the two supply-source
strategies are not equivalent. -/
theorem closed_form_supply_divergence :
    (∀ (g : Int) (alloc : Option (List (String × GenesisAccount))) (bn : Nat),
      bn < 2 ^ 63 →
      (getCurrentSupplyFromBlockNumber (some g) alloc bn).1
        = g + (bn : Int) * BlockRewardAmount) ∧
    (∀ (g : Int) (alloc : Option (List (String × GenesisAccount)))
        (evs : List ChainEvent),
      (runChain g evs).divergent = true →
      (runChain g evs).height < 2 ^ 63 →
      (runChain g evs).sst.tracker.GetTotalSupply
          < (getCurrentSupplyFromBlockNumber (some g) alloc
              (runChain g evs).height).1 ∧
      (runChain g evs).sst.tracker.GetTotalSupply
          ≠ (getCurrentSupplyFromBlockNumber (some g) alloc
              (runChain g evs).height).1) := by
  have hA : ∀ (g : Int) (alloc : Option (List (String × GenesisAccount)))
      (bn : Nat), bn < 2 ^ 63 →
      (getCurrentSupplyFromBlockNumber (some g) alloc bn).1
        = g + (bn : Int) * BlockRewardAmount := by
    intro g alloc bn hbn
    have hcast : int64OfUint64 bn = (bn : Int) := by
      unfold int64OfUint64
      rw [if_pos hbn]
    simp [getCurrentSupplyFromBlockNumber, getGenesisTotal, hcast]
  refine ⟨hA, ?_⟩
  intro g alloc evs hdiv hh
  have hinv := chainFold_inv g evs
    { sst := NewSystemSupplyTracker g, height := 0, divergent := false }
    (by simp [NewSystemSupplyTracker, NewSupplyTracker,
      SupplyTracker.getCurrentSupply])
    (fun h => Bool.noConfusion h)
  rw [show evs.foldl stepChain
      { sst := NewSystemSupplyTracker g, height := 0, divergent := false }
      = runChain g evs from rfl] at hinv
  have hlt := hinv.2 hdiv
  rw [getCurrentSupply_eq_GetTotalSupply] at hlt
  rw [hA g alloc (runChain g evs).height hh]
  exact ⟨hlt, ne_of_lt hlt⟩

/-- Witness for C9 at concrete inputs: at block 5 with cached genesis 0 the
closed form returns `5e18`; and on the concrete history of one reward block
followed by a successful burn of 1, the log-derived total differs from the
closed form at height 1. -/
theorem closed_form_supply_divergence_witness :
    ((getCurrentSupplyFromBlockNumber (some 0) none 5).1
        = 0 + ((5 : Nat) : Int) * BlockRewardAmount) ∧
    ((runChain 0 [ChainEvent.rewardBlock 0,
        ChainEvent.burnEvent (some 1) 1 "consensus_engine"
          0]).sst.tracker.GetTotalSupply
      ≠ (getCurrentSupplyFromBlockNumber (some 0) none
          (runChain 0 [ChainEvent.rewardBlock 0,
            ChainEvent.burnEvent (some 1) 1 "consensus_engine"
              0]).height).1) :=
  ⟨closed_form_supply_divergence.1 0 none 5 (by decide),
   (closed_form_supply_divergence.2 0 none
      [ChainEvent.rewardBlock 0,
       ChainEvent.burnEvent (some 1) 1 "consensus_engine" 0]
      (by decide) (by decide)).2⟩
